import Mathlib

/-!
Shallow embedding of the `multidensity` library (files `multidensity/mvst.py` and
`multidensity/skstdm.py`): a symmetric multivariate Student density `MvSt` and a skewed
Demarta & McNeil multivariate Student density `SkStDM`, both specializations of a base
parameter container `MultiDensity`.

Machine floats are modelled by real numbers; numpy arrays of reals by `Fin`-indexed
functions and `Matrix`, and the raw Python lists stored on the object (`mu`, `sigma`,
`data`) by `List ℝ` / `List (List ℝ)` so that fields whose length need not match the
working dimension can be represented.  `scipy.linalg.solve (A, b)` is modelled by
`A⁻¹ *ᵥ b` (Mathlib's nonsingular inverse), `scipy.linalg.det` by `Matrix.det`,
`scipy.special.gammaln` by `Real.log ∘ Real.Gamma` (both equal `log |Γ|` on negative
values), `scipy.special.gamma` by `Real.Gamma`, and Python `x ** y` with float exponent
by `Real.rpow`.  The modified Bessel function `scipy.special.kv` and the random draws of
`rvs` are collaborators external to the repository (spec section 6), so they enter as
explicit function parameters.
-/

open Matrix

/-- Base parameter container (class `MultiDensity`, spec section 4.1): owns the stored
dimension `ndim`, the degrees of freedom `eta`, the skewness vector `lam`, the optional
location `mu` and scale `sigma`, and the cached data grid.  The type index `k` is the
length of the currently stored skewness vector (`self.lam.size` in the source), which
may differ from the stored `ndim` after `from_theta`. -/
structure MultiDensity (k : ℕ) where
  ndim : ℕ
  eta : ℝ
  lam : Fin k → ℝ
  mu : Option (List ℝ)
  sigma : Option (List (List ℝ))
  data : Option (List (List ℝ))

/-- Read a stored Python list as a length-`k` real vector (entries beyond the list are
junk `0`; numpy would raise a broadcast error instead, a case no theorem relies on). -/
def vecOfList (k : ℕ) (l : List ℝ) : Fin k → ℝ := fun i => l.getD i.val 0

/-- Read a stored Python list of lists as a `k × k` real matrix (same junk convention
as `vecOfList`). -/
def matOfLists (k : ℕ) (l : List (List ℝ)) : Matrix (Fin k) (Fin k) ℝ :=
  Matrix.of fun i j => (l.getD i.val []).getD j.val 0

/-- Store a real matrix back as a Python list of lists. -/
def listsOfMat {T k : ℕ} (m : Matrix (Fin T) (Fin k) ℝ) : List (List ℝ) :=
  List.ofFn fun t => List.ofFn fun i => m t i

/-- Argument accepted by `pdf`: either one observation (a `k`-vector) or a grid of `T`
observations (a `T × k` matrix), exactly the two shapes the docstring admits. -/
inductive DataIn (k : ℕ) where
  | vec (v : Fin k → ℝ)
  | mat (T : ℕ) (m : Matrix (Fin T) (Fin k) ℝ)

/-- Model of `np.atleast_2d`: a `k`-vector becomes a `1 × k` matrix, a matrix is kept. -/
def atleast_2d {k : ℕ} : DataIn k → (T : ℕ) × Matrix (Fin T) (Fin k) ℝ
  | .vec v => ⟨1, Matrix.of fun _ j => v j⟩
  | .mat T m => ⟨T, m⟩

/-- Modelled from the spec: `MvSt.__init__` forwards to the constructor of the base
class `MultiDensity` (file `multidensity/multidensity.py`, which is not under `src/`);
per spec section 4.1 the base class merely owns `ndim`, `eta`, `lam` and `data`, and
the symmetric variant passes `lam = np.zeros(ndim)` ("skewness is forced to the zero
vector", spec section 4.2) and then stores `mu` and `sigma` itself. -/
def MvSt.init (ndim : ℕ) (eta : ℝ) (mu : Option (List ℝ)) (sigma : Option (List (List ℝ)))
    (data : Option (List (List ℝ))) : MultiDensity ndim :=
  { ndim := ndim, eta := eta, lam := fun _ => 0, mu := mu, sigma := sigma, data := data }

/-- `MvSt.const_mu` (mvst.py lines 99-110): the supplied `mu`, else `np.zeros(self.ndim)`
(represented at the working dimension `k`, which equals `self.ndim` for every state the
symmetric constructor produces). -/
def MvSt.const_mu {k : ℕ} (s : MultiDensity k) : Fin k → ℝ :=
  match s.mu with
  | none => fun _ => 0
  | some l => vecOfList k l

/-- `MvSt.const_sigma` (mvst.py lines 112-123): the supplied `sigma`, else
`(1 - 2/eta) * np.eye(self.ndim)` (represented at the working dimension `k`). -/
noncomputable def MvSt.const_sigma {k : ℕ} (s : MultiDensity k) : Matrix (Fin k) (Fin k) ℝ :=
  match s.sigma with
  | none => (1 - 2 / s.eta) • (1 : Matrix (Fin k) (Fin k) ℝ)
  | some l => matOfLists k l

/-- Value part of `MvSt.pdf` (mvst.py lines 143-158), evaluated on the already
normalized `T × k` data grid.  `ndim = self.lam.size` is the type index `k`; note the
source uses `k` in `term1` and `term3` but `self.ndim` in the log-gamma `term2`. -/
noncomputable def MvSt.pdfVals {k T : ℕ} (s : MultiDensity k)
    (data : Matrix (Fin T) (Fin k) ℝ) : Fin T → ℝ :=
  let diff : Matrix (Fin T) (Fin k) ℝ := Matrix.of fun t i => data t i - MvSt.const_mu s i
  let diff_norm : Matrix (Fin k) (Fin T) ℝ := (MvSt.const_sigma s)⁻¹ * diffᵀ
  let diff_sandwich : Fin T → ℝ := fun t => ∑ i, diffᵀ i t * diff_norm i t
  fun t =>
    ((Real.pi * s.eta) ^ k * (MvSt.const_sigma s).det) ^ (-(1 / 2) : ℝ)
      * Real.exp (Real.log (Real.Gamma ((s.eta + (s.ndim : ℝ)) / 2))
          - Real.log (Real.Gamma (s.eta / 2)))
      * (1 + diff_sandwich t / s.eta) ^ (-((s.eta + (k : ℝ)) / 2))

/-- `MvSt.pdf` (mvst.py lines 125-158): raises `No data given!` when the call-time
argument is `None`, else caches `np.atleast_2d(data)` onto the object and returns one
density value per observation row. -/
noncomputable def MvSt.pdf {k : ℕ} (s : MultiDensity k) (input : Option (DataIn k)) :
    Except String (MultiDensity k × ((T : ℕ) × (Fin T → ℝ))) :=
  match input with
  | none => Except.error (r"No data given!")
  | some din =>
      Except.ok ({ s with data := some (listsOfMat (atleast_2d din).2) },
        ⟨(atleast_2d din).1, MvSt.pdfVals s (atleast_2d din).2⟩)

/-- `MvSt.from_theta` (mvst.py lines 61-70): `self.eta = theta`, a scalar. -/
def MvSt.from_theta {k : ℕ} (s : MultiDensity k) (theta : ℝ) : MultiDensity k :=
  { s with eta := theta }

/-- `MvSt.bounds` (mvst.py lines 72-81): the single pair `(2, None)`. -/
def MvSt.bounds : List (Option ℝ × Option ℝ) := [(some 2, none)]

/-- `MvSt.theta_start` (mvst.py lines 83-97): the scalar `10`, whatever `ndim`. -/
def MvSt.theta_start (_ndim : ℕ) : ℝ := 10

/-- `SkStDM.const_mu` (skstdm.py lines 112-123): the supplied `mu`, else
`eta / (2 - eta) * lam`. -/
noncomputable def SkStDM.const_mu {k : ℕ} (s : MultiDensity k) : Fin k → ℝ :=
  match s.mu with
  | none => fun i => s.eta / (2 - s.eta) * s.lam i
  | some l => vecOfList k l

/-- `SkStDM.const_sigma` (skstdm.py lines 125-139): the supplied `sigma`, else
`(1 - 2/eta) * np.eye(ndim) - 2*eta/(eta-2)/(eta-4) * lam * lam[:, np.newaxis]` with
`ndim = self.lam.size = k`; the broadcast product has entry `lam i * lam j` at `(i, j)`. -/
noncomputable def SkStDM.const_sigma {k : ℕ} (s : MultiDensity k) :
    Matrix (Fin k) (Fin k) ℝ :=
  match s.sigma with
  | none =>
      (1 - 2 / s.eta) • (1 : Matrix (Fin k) (Fin k) ℝ)
        - (2 * s.eta / (s.eta - 2) / (s.eta - 4)) • Matrix.of fun i j => s.lam i * s.lam j
  | some l => matOfLists k l

/-- Value part of `SkStDM.pdf` (skstdm.py lines 159-179), evaluated on the already
normalized `T × k` data grid.  `kv` is the modified Bessel function of the second kind
(`scipy.special.kv`), a special-function collaborator external to the repository, hence
a parameter.  `ndim = self.lam.size` is the type index `k`; the stored `self.ndim` is
never read. -/
noncomputable def SkStDM.pdfVals (kv : ℝ → ℝ → ℝ) {k T : ℕ} (s : MultiDensity k)
    (data : Matrix (Fin T) (Fin k) ℝ) : Fin T → ℝ :=
  let diff : Matrix (Fin T) (Fin k) ℝ := Matrix.of fun t i => data t i - SkStDM.const_mu s i
  let diff_norm : Matrix (Fin k) (Fin T) ℝ := (SkStDM.const_sigma s)⁻¹ * diffᵀ
  let diff_sandwich : Fin T → ℝ := fun t => ∑ i, diffᵀ i t * diff_norm i t
  let norm_lam : ℝ := ∑ i, s.lam i * ((SkStDM.const_sigma s)⁻¹ *ᵥ s.lam) i
  let kappa : Fin T → ℝ := fun t => ((s.eta + diff_sandwich t) * norm_lam) ^ ((1 / 2) : ℝ)
  fun t =>
    (2 : ℝ) ^ (1 - (s.eta + (k : ℝ)) / 2)
      / ((Real.pi * s.eta) ^ k * (SkStDM.const_sigma s).det) ^ ((1 / 2) : ℝ)
      * kv ((s.eta + (k : ℝ)) / 2) (kappa t)
      * kappa t ^ ((s.eta + (k : ℝ)) / 2)
      / Real.Gamma (s.eta / 2)
      * Real.exp (∑ i, diff_norm i t * s.lam i)
      * (1 + diff_sandwich t / s.eta) ^ (-((s.eta + (k : ℝ)) / 2))

/-- Spec-side variant of `SkStDM.pdfVals` for the refinement comparison with the
symmetric density: the factor `kv ν κ * κ ^ ν`, which the source evaluates even at the
removable singularity `κ = 0` (spec section 4.3 edge-case note), is replaced by its
`κ → 0` limit `2 ^ (ν - 1) * Γ ν`.  Everything else is verbatim `SkStDM.pdfVals`. -/
noncomputable def SkStDM.pdfValsLimit {k T : ℕ} (s : MultiDensity k)
    (data : Matrix (Fin T) (Fin k) ℝ) : Fin T → ℝ :=
  let diff : Matrix (Fin T) (Fin k) ℝ := Matrix.of fun t i => data t i - SkStDM.const_mu s i
  let diff_norm : Matrix (Fin k) (Fin T) ℝ := (SkStDM.const_sigma s)⁻¹ * diffᵀ
  let diff_sandwich : Fin T → ℝ := fun t => ∑ i, diffᵀ i t * diff_norm i t
  fun t =>
    (2 : ℝ) ^ (1 - (s.eta + (k : ℝ)) / 2)
      / ((Real.pi * s.eta) ^ k * (SkStDM.const_sigma s).det) ^ ((1 / 2) : ℝ)
      * ((2 : ℝ) ^ ((s.eta + (k : ℝ)) / 2 - 1) * Real.Gamma ((s.eta + (k : ℝ)) / 2))
      / Real.Gamma (s.eta / 2)
      * Real.exp (∑ i, diff_norm i t * s.lam i)
      * (1 + diff_sandwich t / s.eta) ^ (-((s.eta + (k : ℝ)) / 2))

/-- `SkStDM.pdf` (skstdm.py lines 141-179): raises `No data given!` when the call-time
argument is `None`, else caches `np.atleast_2d(data)` onto the object and returns one
density value per observation row. -/
noncomputable def SkStDM.pdf (kv : ℝ → ℝ → ℝ) {k : ℕ} (s : MultiDensity k)
    (input : Option (DataIn k)) :
    Except String (MultiDensity k × ((T : ℕ) × (Fin T → ℝ))) :=
  match input with
  | none => Except.error (r"No data given!")
  | some din =>
      Except.ok ({ s with data := some (listsOfMat (atleast_2d din).2) },
        ⟨(atleast_2d din).1, SkStDM.pdfVals kv s (atleast_2d din).2⟩)

/-- `SkStDM.from_theta` (skstdm.py lines 68-78) at the typed level: element `0` of the
flat vector becomes `eta`, the remaining `m` elements become the new skewness vector;
`ndim`, `mu`, `sigma` and the cached data are untouched.  No validation of `m` against
the stored `ndim` takes place. -/
def SkStDM.from_theta {k m : ℕ} (s : MultiDensity k) (theta : Fin (m + 1) → ℝ) :
    MultiDensity m :=
  { ndim := s.ndim, eta := theta 0, lam := fun i => theta i.succ,
    mu := s.mu, sigma := s.sigma, data := s.data }

/-- `SkStDM.from_theta` (skstdm.py lines 77-78) at the storage level, for a flat list
`theta`: `self.eta = np.atleast_1d(theta[0])` is the one-element array `[theta 0]` and
`self.lam = np.atleast_1d(theta[1:])` is the tail.  (`theta.getD 0 0` is junk `0` on an
empty list, where Python would raise `IndexError`; no theorem uses that case.) -/
def SkStDM.from_theta_fields (theta : List ℝ) : List ℝ × List ℝ :=
  ([theta.getD 0 0], theta.drop 1)

/-- `SkStDM.bounds` (skstdm.py lines 80-92):
`zip(concatenate(([4], ndim * [None])), (1 + ndim) * [None])`. -/
def SkStDM.bounds {k : ℕ} (s : MultiDensity k) : List (Option ℝ × Option ℝ) :=
  List.zip (some 4 :: List.replicate s.ndim none) (List.replicate (1 + s.ndim) none)

/-- `SkStDM.theta_start` (skstdm.py lines 94-110): `concatenate(([10], zeros(ndim)))`. -/
def SkStDM.theta_start (ndim : ℕ) : List ℝ := [(10 : ℝ)] ++ List.replicate ndim (0 : ℝ)

/-- `SkStDM.rvs` (skstdm.py lines 181-197).  The random collaborators are parameters:
`invgamma_rvs a scale` models `scs.invgamma.rvs(a, scale=scale, size=size)` and
`mvnormal_rvs cov` models `scs.multivariate_normal.rvs(cov=cov, size=size)`.  The
source combines them row-wise as `const_mu() + lam * igrv + igrv ** .5 * mvnorm` with
`igrv` broadcast along each row. -/
noncomputable def SkStDM.rvs {k : ℕ} (s : MultiDensity k) (size : ℕ)
    (invgamma_rvs : ℝ → ℝ → Fin size → ℝ)
    (mvnormal_rvs : Matrix (Fin k) (Fin k) ℝ → Fin size → Fin k → ℝ) :
    Matrix (Fin size) (Fin k) ℝ :=
  let igrv : Fin size → ℝ := invgamma_rvs (s.eta / 2) (s.eta / 2)
  let mvnorm : Fin size → Fin k → ℝ := mvnormal_rvs (SkStDM.const_sigma s)
  Matrix.of fun t i =>
    SkStDM.const_mu s i + s.lam i * igrv t + igrv t ^ ((1 / 2) : ℝ) * mvnorm t i

/-! ### Concrete instances used by witnesses and counterexamples -/

/-- Symmetric density of the concrete scenario of spec section 8:
`MvSt(ndim=2, eta=10, mu=None, sigma=None)`. -/
def exSym2 : MultiDensity 2 := MvSt.init 2 10 none none none

/-- The normalized data grid for `data = [0, 0]`: one observation, two dimensions. -/
def dZero2 : Matrix (Fin 1) (Fin 2) ℝ := Matrix.of fun _ _ => 0

/-- One-dimensional symmetric state `ndim=1, eta=10, lam=[0], mu=None, sigma=None`. -/
def exSym1 : MultiDensity 1 :=
  { ndim := 1, eta := 10, lam := fun _ => 0, mu := none, sigma := none, data := none }

/-- One observation at the origin in one dimension. -/
def dZero1 : Matrix (Fin 1) (Fin 1) ℝ := Matrix.of fun _ _ => 0

/-- A state whose stored `ndim` (2) disagrees with the length of the stored skewness
vector (1), as `SkStDM.from_theta` can produce; `mu` and `sigma` are supplied so that
every quantity in `MvSt.pdf` except the log-gamma term uses the working dimension. -/
def exMismatch : MultiDensity 1 :=
  { ndim := 2, eta := 10, lam := fun _ => 0, mu := some [0], sigma := some [[1]],
    data := none }

/-- A concrete stand-in for the external Bessel collaborator, constant `1`. -/
def kvOne : ℝ → ℝ → ℝ := fun _ _ => 1

/-! ### Helper lemmas -/

/-- The log-gamma difference of the source equals the gamma ratio of the documented
formula, on positive arguments. -/
lemma gamma_ratio {a b : ℝ} (ha : 0 < a) (hb : 0 < b) :
    Real.exp (Real.log (Real.Gamma a) - Real.log (Real.Gamma b)) =
      Real.Gamma a / Real.Gamma b := by
  rw [Real.exp_sub, Real.exp_log (Real.Gamma_pos_of_pos ha),
    Real.exp_log (Real.Gamma_pos_of_pos hb)]

/-- `x ** (-.5)` is `1 / x ** .5`, for every real `x` (both sides are `0` at `x ≤ 0`). -/
lemma rpow_neg_half_eq (X : ℝ) : X ^ (-(1 / 2) : ℝ) = 1 / X ^ ((1 / 2) : ℝ) := by
  rcases lt_trichotomy X 0 with h | h | h
  · have c1 : Real.cos ((1 / 2 : ℝ) * Real.pi) = 0 := by
      rw [show (1 / 2 : ℝ) * Real.pi = Real.pi / 2 by ring, Real.cos_pi_div_two]
    have c2 : Real.cos ((-(1 / 2) : ℝ) * Real.pi) = 0 := by
      rw [show (-(1 / 2) : ℝ) * Real.pi = -(Real.pi / 2) by ring, Real.cos_neg,
        Real.cos_pi_div_two]
    rw [Real.rpow_def_of_neg h, Real.rpow_def_of_neg h, c1, c2]
    simp
  · rw [h, Real.zero_rpow (by norm_num), Real.zero_rpow (by norm_num)]
    simp
  · rw [Real.rpow_neg h.le]
    exact (one_div _).symm

/-- The per-row sandwich sum of the source is the quadratic form of the documented
formula. -/
lemma sandwich_eq_dotProduct {k T : ℕ} (A : Matrix (Fin k) (Fin k) ℝ)
    (diff : Matrix (Fin T) (Fin k) ℝ) (t : Fin T) :
    ∑ i, diffᵀ i t * (A * diffᵀ) i t = dotProduct (fun i => diff t i) (A *ᵥ fun i => diff t i) := by
  simp [Matrix.mul_apply, Matrix.mulVec, Matrix.dotProduct, Matrix.transpose_apply]

/-- A positive multiple of the identity is positive definite. -/
lemma posDef_smul_one {n : ℕ} {c : ℝ} (hc : 0 < c) :
    (c • (1 : Matrix (Fin n) (Fin n) ℝ)).PosDef := by
  rw [Matrix.smul_one_eq_diagonal]
  exact Matrix.PosDef.diagonal fun _ => hc

/-- Real quadratic form of a positive semidefinite matrix is nonnegative. -/
lemma quad_nonneg {n : ℕ} {M : Matrix (Fin n) (Fin n) ℝ} (hM : M.PosSemidef)
    (x : Fin n → ℝ) : 0 ≤ dotProduct x (M *ᵥ x) := by
  simpa using hM.2 x

/-- `zip` of equal-length constant lists. -/
lemma zip_replicate_none (n : ℕ) :
    List.zip (List.replicate n (none : Option ℝ)) (List.replicate n (none : Option ℝ)) =
      List.replicate n ((none : Option ℝ), (none : Option ℝ)) := by
  induction n with
  | zero => rfl
  | succ n ih => simp [List.replicate_succ, ih]

/-! ### Claim theorems -/

/-- C3, counterexample: the claim predicts no error when data was supplied at
construction time, but `pdf` raises `No data given!` whenever the call-time argument
is `None`, even on an object constructed with a data grid. -/
theorem mvst_pdf_errors_despite_constructor_data :
    (MvSt.init 2 10 none none (some [[0, 0]])).data = some [[0, 0]]
      ∧ MvSt.pdf (MvSt.init 2 10 none none (some [[0, 0]])) none =
          Except.error (r"No data given!") :=
  ⟨rfl, rfl⟩

/-- C3 (amended): for both variants, `pdf` raises the single `No data given!` error
exactly when the call-time `data` argument is `None` — irrespective of any data cached
at construction — and with call-time data present it always returns a value (in this
real-number model all arithmetic, including the linear solve, is total; out-of-domain
parameters yield junk values rather than errors). -/
theorem pdf_error_iff_calltime_data_missing :
    ∀ (k : ℕ) (kv : ℝ → ℝ → ℝ) (s : MultiDensity k),
      MvSt.pdf s none = Except.error (r"No data given!")
        ∧ SkStDM.pdf kv s none = Except.error (r"No data given!")
        ∧ (∀ din, ∃ r, MvSt.pdf s (some din) = Except.ok r)
        ∧ (∀ din, ∃ r, SkStDM.pdf kv s (some din) = Except.ok r) :=
  fun _ _ _ => ⟨rfl, rfl, fun _ => ⟨_, rfl⟩, fun _ => ⟨_, rfl⟩⟩

/-- C6: `rvs(size)` returns a `size × k` matrix whose row `t` is
`const_mu() + lam * m t + sqrt (m t) * z t`, where the mixing draws `m` are requested
from the inverse-gamma collaborator with shape `eta/2` and scale `eta/2`, and the
normal draws `z` from the multivariate-normal collaborator with covariance
`const_sigma()`. -/
theorem skstdm_rvs_mixture_representation :
    ∀ (k size : ℕ) (s : MultiDensity k) (invgamma_rvs : ℝ → ℝ → Fin size → ℝ)
      (mvnormal_rvs : Matrix (Fin k) (Fin k) ℝ → Fin size → Fin k → ℝ),
      SkStDM.rvs s size invgamma_rvs mvnormal_rvs = Matrix.of fun t i =>
        SkStDM.const_mu s i + s.lam i * invgamma_rvs (s.eta / 2) (s.eta / 2) t
          + Real.sqrt (invgamma_rvs (s.eta / 2) (s.eta / 2) t)
              * mvnormal_rvs (SkStDM.const_sigma s) t i := by
  intro k size s ig mvn
  ext t i
  simp [SkStDM.rvs, Real.sqrt_eq_rpow]

/-- C7: `from_theta` followed by reading back `eta` and `lam` reproduces the exact
input split: at the typed level element `0` becomes `eta` and the tail becomes `lam`;
at the storage level the stored one-element `eta` array concatenated with the stored
`lam` recovers the input list; the symmetric variant stores the scalar exactly. -/
theorem from_theta_roundtrip :
    (∀ (k m : ℕ) (s : MultiDensity k) (theta : Fin (m + 1) → ℝ),
        (SkStDM.from_theta s theta).eta = theta 0
          ∧ (SkStDM.from_theta s theta).lam = fun i : Fin m => theta i.succ)
      ∧ (∀ (a : ℝ) (rest : List ℝ),
          SkStDM.from_theta_fields (a :: rest) = ([a], rest)
            ∧ (SkStDM.from_theta_fields (a :: rest)).1
                ++ (SkStDM.from_theta_fields (a :: rest)).2 = a :: rest)
      ∧ (∀ (k : ℕ) (s : MultiDensity k) (x : ℝ), (MvSt.from_theta s x).eta = x) :=
  ⟨fun _ _ _ _ => ⟨rfl, rfl⟩, fun _ _ => ⟨rfl, rfl⟩, fun _ _ _ => rfl⟩

/-- C8: the symmetric variant has the single bound `(2, None)` and scalar start `10`
(one free parameter); the skewed variant has the eta bound `(4, None)` first, one
unbounded pair per skewness dimension, start `[10] ++ zeros ndim`, and the bounds list
length always equals the length of the start vector (`ndim + 1`). -/
theorem bounds_length_matches_theta_start :
    MvSt.bounds = [(some 2, none)]
      ∧ MvSt.bounds.length = 1
      ∧ (∀ n : ℕ, MvSt.theta_start n = 10)
      ∧ (∀ (k : ℕ) (s : MultiDensity k),
          SkStDM.bounds s = (some 4, none) :: List.replicate s.ndim (none, none)
            ∧ (SkStDM.bounds s).length = s.ndim + 1
            ∧ SkStDM.theta_start s.ndim = 10 :: List.replicate s.ndim 0
            ∧ (SkStDM.theta_start s.ndim).length = (SkStDM.bounds s).length) := by
  have hb : ∀ (k : ℕ) (s : MultiDensity k),
      SkStDM.bounds s = (some 4, none) :: List.replicate s.ndim (none, none) := by
    intro k s
    unfold SkStDM.bounds
    rw [Nat.add_comm 1 s.ndim, List.replicate_succ, List.zip_cons_cons, zip_replicate_none]
  refine ⟨rfl, rfl, fun _ => rfl, fun k s => ⟨hb k s, ?_, rfl, ?_⟩⟩
  · rw [hb k s]; simp
  · rw [hb k s]; simp [SkStDM.theta_start]

/-- C9: a `pdf` call with call-time data mutates only the `data` field, setting it to
the input normalized by `atleast_2d` to a `T × ndim` grid; `eta`, `lam`, `mu`, `sigma`
and `ndim` are untouched (the record update below changes the `data` field alone). -/
theorem pdf_caches_only_data :
    ∀ (k : ℕ) (kv : ℝ → ℝ → ℝ) (s : MultiDensity k) (din : DataIn k),
      MvSt.pdf s (some din) =
          Except.ok ({ s with data := some (listsOfMat (atleast_2d din).2) },
            ⟨(atleast_2d din).1, MvSt.pdfVals s (atleast_2d din).2⟩)
        ∧ SkStDM.pdf kv s (some din) =
            Except.ok ({ s with data := some (listsOfMat (atleast_2d din).2) },
              ⟨(atleast_2d din).1, SkStDM.pdfVals kv s (atleast_2d din).2⟩) :=
  fun _ _ _ _ => ⟨rfl, rfl⟩

/-- `Γ 6 = 120`. -/
lemma gamma_six : Real.Gamma 6 = 120 := by
  rw [show (6 : ℝ) = ((5 : ℕ) : ℝ) + 1 by norm_num, Real.Gamma_nat_eq_factorial]
  norm_num [Nat.factorial]

/-- `Γ 5 = 24`. -/
lemma gamma_five : Real.Gamma 5 = 24 := by
  rw [show (5 : ℝ) = ((4 : ℕ) : ℝ) + 1 by norm_num, Real.Gamma_nat_eq_factorial]
  norm_num [Nat.factorial]

/-- `Γ (11/2) = (945/32) √π < 120`, separating `Γ ((10+1)/2) / Γ 5` from `Γ 6 / Γ 5`. -/
lemma gamma_eleven_half_lt : Real.Gamma (11 / 2) < 120 := by
  have h1 : Real.Gamma (1 / 2) = Real.sqrt Real.pi := Real.Gamma_one_half_eq
  have h3 : Real.Gamma (3 / 2) = (1 / 2) * Real.sqrt Real.pi := by
    rw [show (3 / 2 : ℝ) = 1 / 2 + 1 by norm_num, Real.Gamma_add_one (by norm_num), h1]
  have h5 : Real.Gamma (5 / 2) = (3 / 2) * ((1 / 2) * Real.sqrt Real.pi) := by
    rw [show (5 / 2 : ℝ) = 3 / 2 + 1 by norm_num, Real.Gamma_add_one (by norm_num), h3]
  have h7 : Real.Gamma (7 / 2) = (5 / 2) * ((3 / 2) * ((1 / 2) * Real.sqrt Real.pi)) := by
    rw [show (7 / 2 : ℝ) = 5 / 2 + 1 by norm_num, Real.Gamma_add_one (by norm_num), h5]
  have h9 : Real.Gamma (9 / 2)
      = (7 / 2) * ((5 / 2) * ((3 / 2) * ((1 / 2) * Real.sqrt Real.pi))) := by
    rw [show (9 / 2 : ℝ) = 7 / 2 + 1 by norm_num, Real.Gamma_add_one (by norm_num), h7]
  have h11 : Real.Gamma (11 / 2)
      = (9 / 2) * ((7 / 2) * ((5 / 2) * ((3 / 2) * ((1 / 2) * Real.sqrt Real.pi)))) := by
    rw [show (11 / 2 : ℝ) = 9 / 2 + 1 by norm_num, Real.Gamma_add_one (by norm_num), h9]
  have hs : Real.sqrt Real.pi ≤ 2 := by
    have h4 : Real.sqrt 4 = 2 := by
      rw [show (4 : ℝ) = 2 ^ 2 by norm_num]
      exact Real.sqrt_sq (by norm_num)
    calc Real.sqrt Real.pi ≤ Real.sqrt 4 := Real.sqrt_le_sqrt Real.pi_le_four
      _ = 2 := h4
  have hnn : 0 ≤ Real.sqrt Real.pi := Real.sqrt_nonneg _
  rw [h11]
  nlinarith

/-- Cancellation of the two powers of two in the filled-in skewed density. -/
lemma two_pow_cancel (v x g B Gv : ℝ) :
    (2 : ℝ) ^ (1 - v) / x * ((2 : ℝ) ^ (v - 1) * Gv) / g * B = 1 / x * (Gv / g) * B := by
  have h2 : (2 : ℝ) ^ (1 - v) * (2 : ℝ) ^ (v - 1) = 1 := by
    rw [← Real.rpow_add (by norm_num : (0 : ℝ) < 2), show (1 - v) + (v - 1) = 0 by ring,
      Real.rpow_zero]
  linear_combination (Gv * B / (x * g)) * h2

/-- With zero skewness the two derived location constants coincide. -/
lemma lam_zero_const_mu_eq {k : ℕ} (s : MultiDensity k) (h0 : s.lam = 0) :
    SkStDM.const_mu s = MvSt.const_mu s := by
  cases hm : s.mu with
  | none => funext i; simp [SkStDM.const_mu, MvSt.const_mu, hm, h0]
  | some l => simp [SkStDM.const_mu, MvSt.const_mu, hm]

/-- With zero skewness the two derived scale constants coincide. -/
lemma lam_zero_const_sigma_eq {k : ℕ} (s : MultiDensity k) (h0 : s.lam = 0) :
    SkStDM.const_sigma s = MvSt.const_sigma s := by
  cases hs : s.sigma with
  | none =>
      have hz : (Matrix.of fun i j => s.lam i * s.lam j)
          = (0 : Matrix (Fin k) (Fin k) ℝ) := by
        ext i j; simp [h0]
      simp [SkStDM.const_sigma, MvSt.const_sigma, hs, hz]
  | some l => simp [SkStDM.const_sigma, MvSt.const_sigma, hs]

/-- `MvSt.pdfVals` in the documented closed form: when the stored `ndim` equals the
working dimension, the value at row `t` is
`[(π eta)^k det Σ]^(-1/2) · Γ((eta+k)/2)/Γ(eta/2) · (1 + Q/eta)^(-(eta+k)/2)` with `Q`
the quadratic form of the centered row against `Σ⁻¹`. -/
lemma mvst_pdfVals_formula {k T : ℕ} (s : MultiDensity k) (d : Matrix (Fin T) (Fin k) ℝ)
    (heta : 0 < s.eta) (hnd : s.ndim = k) (t : Fin T) :
    MvSt.pdfVals s d t =
      ((Real.pi * s.eta) ^ k * (MvSt.const_sigma s).det) ^ (-(1 / 2) : ℝ)
        * (Real.Gamma ((s.eta + (k : ℝ)) / 2) / Real.Gamma (s.eta / 2))
        * (1 + dotProduct (fun i => d t i - MvSt.const_mu s i)
              ((MvSt.const_sigma s)⁻¹ *ᵥ fun i => d t i - MvSt.const_mu s i) / s.eta)
            ^ (-((s.eta + (k : ℝ)) / 2)) := by
  have hnu : 0 < (s.eta + (k : ℝ)) / 2 := by positivity
  have h2 : 0 < s.eta / 2 := by positivity
  simp only [MvSt.pdfVals, hnd]
  rw [gamma_ratio hnu h2, sandwich_eq_dotProduct]
  simp only [Matrix.of_apply]

/-- C1: for the symmetric density with in-domain parameters and matching stored
dimension, `pdf` returns for each row the documented Student-t value
`[(π eta)^ndim det Σ]^(-1/2) · Γ((eta+ndim)/2)/Γ(eta/2) · (1 + Q/eta)^(-(eta+ndim)/2)`
with `Σ = const_sigma()` and `Q` the row's quadratic form against `Σ⁻¹`, the gamma
ratio coming from the log-gamma difference; and in the concrete scenario `ndim=2`,
`eta=10`, `mu=None`, `sigma=None`, `data=[0,0]` the single returned value is the
positive number `((π·10)^2 · det(4/5·I))^(-1/2) · Γ 6 / Γ 5`. -/
theorem mvst_pdf_formula_claim :
    (∀ (k T : ℕ) (s : MultiDensity k) (d : Matrix (Fin T) (Fin k) ℝ) (t : Fin T),
        2 < s.eta → s.ndim = k →
        MvSt.pdfVals s d t =
          ((Real.pi * s.eta) ^ k * (MvSt.const_sigma s).det) ^ (-(1 / 2) : ℝ)
            * (Real.Gamma ((s.eta + (k : ℝ)) / 2) / Real.Gamma (s.eta / 2))
            * (1 + dotProduct (fun i => d t i - MvSt.const_mu s i)
                  ((MvSt.const_sigma s)⁻¹ *ᵥ fun i => d t i - MvSt.const_mu s i) / s.eta)
                ^ (-((s.eta + (k : ℝ)) / 2)))
      ∧ MvSt.pdfVals exSym2 dZero2 0 =
          ((Real.pi * 10) ^ 2 * ((4 / 5 : ℝ) • (1 : Matrix (Fin 2) (Fin 2) ℝ)).det)
              ^ (-(1 / 2) : ℝ) * (Real.Gamma 6 / Real.Gamma 5)
      ∧ 0 < MvSt.pdfVals exSym2 dZero2 0 := by
  have hσ : MvSt.const_sigma exSym2 = (4 / 5 : ℝ) • (1 : Matrix (Fin 2) (Fin 2) ℝ) := by
    rw [show MvSt.const_sigma exSym2
        = ((1 : ℝ) - 2 / 10) • (1 : Matrix (Fin 2) (Fin 2) ℝ) from rfl]
    norm_num
  have hv : (fun i => dZero2 0 i - MvSt.const_mu exSym2 i) = (0 : Fin 2 → ℝ) := by
    funext i
    simp [dZero2, exSym2, MvSt.init, MvSt.const_mu]
  have hval : MvSt.pdfVals exSym2 dZero2 0 =
      ((Real.pi * 10) ^ 2 * ((4 / 5 : ℝ) • (1 : Matrix (Fin 2) (Fin 2) ℝ)).det)
        ^ (-(1 / 2) : ℝ) * (Real.Gamma 6 / Real.Gamma 5) := by
    rw [mvst_pdfVals_formula exSym2 dZero2 (by norm_num [exSym2, MvSt.init]) rfl 0, hv, hσ,
      show exSym2.eta = (10 : ℝ) from rfl, Matrix.zero_dotProduct]
    norm_num [Real.one_rpow]
  have hdet : ((4 / 5 : ℝ) • (1 : Matrix (Fin 2) (Fin 2) ℝ)).det = (4 / 5 : ℝ) ^ 2 := by
    rw [Matrix.det_smul, Matrix.det_one, mul_one, Fintype.card_fin]
  have hpos : 0 < ((Real.pi * 10) ^ 2 * ((4 / 5 : ℝ) • (1 : Matrix (Fin 2) (Fin 2) ℝ)).det)
      ^ (-(1 / 2) : ℝ) * (Real.Gamma 6 / Real.Gamma 5) := by
    refine mul_pos (Real.rpow_pos_of_pos ?_ _)
      (div_pos (Real.Gamma_pos_of_pos (by norm_num)) (Real.Gamma_pos_of_pos (by norm_num)))
    rw [hdet]
    positivity
  exact ⟨fun k T s d t h2 hnd => mvst_pdfVals_formula s d (by linarith) hnd t,
    hval, by rw [hval]; exact hpos⟩

/-- C1, witness: the general conjunct of `mvst_pdf_formula_claim` instantiated at the
concrete scenario state, with both hypotheses discharged. -/
theorem mvst_pdf_formula_claim_witness :
    2 < exSym2.eta ∧ exSym2.ndim = 2
      ∧ MvSt.pdfVals exSym2 dZero2 0 =
          ((Real.pi * exSym2.eta) ^ 2 * (MvSt.const_sigma exSym2).det) ^ (-(1 / 2) : ℝ)
            * (Real.Gamma ((exSym2.eta + ((2 : ℕ) : ℝ)) / 2) / Real.Gamma (exSym2.eta / 2))
            * (1 + dotProduct (fun i => dZero2 0 i - MvSt.const_mu exSym2 i)
                  ((MvSt.const_sigma exSym2)⁻¹ *ᵥ fun i => dZero2 0 i - MvSt.const_mu exSym2 i)
                / exSym2.eta) ^ (-((exSym2.eta + ((2 : ℕ) : ℝ)) / 2)) :=
  ⟨by norm_num [exSym2, MvSt.init], rfl,
    mvst_pdf_formula_claim.1 2 1 exSym2 dZero2 0 (by norm_num [exSym2, MvSt.init]) rfl⟩

/-- C4: `SkStDM.const_sigma` returns the supplied `sigma` as a matrix when present and
otherwise `(1 - 2/eta)·I - 2·eta/((eta-2)(eta-4)) · (lam ⊗ lam)`; `SkStDM.const_mu`
returns the supplied `mu` when present and `eta/(2-eta) · lam` otherwise. -/
theorem skstdm_const_formulas :
    (∀ (k : ℕ) (s : MultiDensity k) (l : List (List ℝ)), s.sigma = some l →
        SkStDM.const_sigma s = matOfLists k l)
      ∧ (∀ (k : ℕ) (s : MultiDensity k), s.sigma = none → 4 < s.eta →
          SkStDM.const_sigma s =
            (1 - 2 / s.eta) • (1 : Matrix (Fin k) (Fin k) ℝ)
              - (2 * s.eta / ((s.eta - 2) * (s.eta - 4)))
                  • Matrix.of fun i j => s.lam i * s.lam j)
      ∧ (∀ (k : ℕ) (s : MultiDensity k) (l : List ℝ), s.mu = some l →
          SkStDM.const_mu s = vecOfList k l)
      ∧ (∀ (k : ℕ) (s : MultiDensity k), s.mu = none →
          SkStDM.const_mu s = fun i => s.eta / (2 - s.eta) * s.lam i) := by
  refine ⟨?_, ?_, ?_, ?_⟩
  · intro k s l h; simp [SkStDM.const_sigma, h]
  · intro k s h _; simp [SkStDM.const_sigma, h, div_div]
  · intro k s l h; simp [SkStDM.const_mu, h]
  · intro k s h; simp [SkStDM.const_mu, h]

/-- C4, witness: the four branches of `skstdm_const_formulas` at concrete states with
and without supplied `mu` / `sigma`. -/
theorem skstdm_const_formulas_witness :
    (exMismatch.sigma = some [[1]] ∧ SkStDM.const_sigma exMismatch = matOfLists 1 [[1]])
      ∧ (exSym1.sigma = none ∧ 4 < exSym1.eta
          ∧ SkStDM.const_sigma exSym1 =
              (1 - 2 / exSym1.eta) • (1 : Matrix (Fin 1) (Fin 1) ℝ)
                - (2 * exSym1.eta / ((exSym1.eta - 2) * (exSym1.eta - 4)))
                    • Matrix.of fun i j => exSym1.lam i * exSym1.lam j)
      ∧ (exMismatch.mu = some [0] ∧ SkStDM.const_mu exMismatch = vecOfList 1 [0])
      ∧ (exSym1.mu = none
          ∧ SkStDM.const_mu exSym1 = fun i => exSym1.eta / (2 - exSym1.eta) * exSym1.lam i) :=
  ⟨⟨rfl, skstdm_const_formulas.1 1 exMismatch [[1]] rfl⟩,
    ⟨rfl, by norm_num [exSym1],
      skstdm_const_formulas.2.1 1 exSym1 rfl (by norm_num [exSym1])⟩,
    ⟨rfl, skstdm_const_formulas.2.2.1 1 exMismatch [0] rfl⟩,
    ⟨rfl, skstdm_const_formulas.2.2.2 1 exSym1 rfl⟩⟩

/-- C5: for in-domain parameters (`eta` above the variant's bound, scale positive
definite, and — for the skewed variant — a nonnegative Bessel collaborator), a `pdf`
call on a grid of `T` observation rows returns exactly `T` values, and every returned
density value is nonnegative. -/
theorem pdf_returns_T_nonneg_values :
    (∀ (k T : ℕ) (s : MultiDensity k) (d : Matrix (Fin T) (Fin k) ℝ),
        2 < s.eta → (MvSt.const_sigma s).PosDef →
        MvSt.pdf s (some (DataIn.mat T d)) =
            Except.ok ({ s with data := some (listsOfMat d) }, ⟨T, MvSt.pdfVals s d⟩)
          ∧ ∀ t, 0 ≤ MvSt.pdfVals s d t)
      ∧ (∀ (k T : ℕ) (kv : ℝ → ℝ → ℝ) (s : MultiDensity k) (d : Matrix (Fin T) (Fin k) ℝ),
          4 < s.eta → (SkStDM.const_sigma s).PosDef → (∀ x y, 0 ≤ kv x y) →
          SkStDM.pdf kv s (some (DataIn.mat T d)) =
              Except.ok ({ s with data := some (listsOfMat d) }, ⟨T, SkStDM.pdfVals kv s d⟩)
            ∧ ∀ t, 0 ≤ SkStDM.pdfVals kv s d t) := by
  constructor
  · intro k T s d h2 hPD
    have heta : 0 < s.eta := by linarith
    refine ⟨rfl, fun t => ?_⟩
    have hQ : 0 ≤ dotProduct (fun i => d t i - MvSt.const_mu s i)
        ((MvSt.const_sigma s)⁻¹ *ᵥ fun i => d t i - MvSt.const_mu s i) :=
      quad_nonneg hPD.inv.posSemidef _
    have hX : 0 < (Real.pi * s.eta) ^ k * (MvSt.const_sigma s).det :=
      mul_pos (pow_pos (mul_pos Real.pi_pos heta) k) hPD.det_pos
    simp only [MvSt.pdfVals]
    rw [sandwich_eq_dotProduct]
    simp only [Matrix.of_apply]
    refine mul_nonneg (mul_nonneg (Real.rpow_nonneg hX.le _) (Real.exp_pos _).le)
      (Real.rpow_nonneg ?_ _)
    linarith [div_nonneg hQ heta.le]
  · intro k T kv s d h4 hPD hkv
    have heta : 0 < s.eta := by linarith
    refine ⟨rfl, fun t => ?_⟩
    have hQ : 0 ≤ dotProduct (fun i => d t i - SkStDM.const_mu s i)
        ((SkStDM.const_sigma s)⁻¹ *ᵥ fun i => d t i - SkStDM.const_mu s i) :=
      quad_nonneg hPD.inv.posSemidef _
    have hnl : 0 ≤ ∑ i, s.lam i * ((SkStDM.const_sigma s)⁻¹ *ᵥ s.lam) i :=
      quad_nonneg hPD.inv.posSemidef s.lam
    have hX : 0 < (Real.pi * s.eta) ^ k * (SkStDM.const_sigma s).det :=
      mul_pos (pow_pos (mul_pos Real.pi_pos heta) k) hPD.det_pos
    simp only [SkStDM.pdfVals]
    rw [sandwich_eq_dotProduct]
    simp only [Matrix.of_apply]
    refine mul_nonneg (mul_nonneg (div_nonneg (mul_nonneg (mul_nonneg (div_nonneg
        (Real.rpow_nonneg (by norm_num) _) (Real.rpow_nonneg hX.le _)) (hkv _ _))
        (Real.rpow_nonneg (Real.rpow_nonneg (mul_nonneg (by linarith) hnl) _) _))
        (Real.Gamma_pos_of_pos (by linarith)).le) (Real.exp_pos _).le)
      (Real.rpow_nonneg (by linarith [div_nonneg hQ heta.le]) _)

/-- C5, witness: both conjuncts of `pdf_returns_T_nonneg_values` at concrete in-domain
states (positive definiteness of the derived scales discharged explicitly). -/
theorem pdf_returns_T_nonneg_values_witness :
    (2 < exSym2.eta ∧ (MvSt.const_sigma exSym2).PosDef ∧ 0 ≤ MvSt.pdfVals exSym2 dZero2 0)
      ∧ (4 < exSym1.eta ∧ (SkStDM.const_sigma exSym1).PosDef ∧ (∀ x y, 0 ≤ kvOne x y)
          ∧ 0 ≤ SkStDM.pdfVals kvOne exSym1 dZero1 0) := by
  have hPD2 : (MvSt.const_sigma exSym2).PosDef := by
    rw [show MvSt.const_sigma exSym2
        = ((1 : ℝ) - 2 / 10) • (1 : Matrix (Fin 2) (Fin 2) ℝ) from rfl]
    exact posDef_smul_one (by norm_num)
  have hPD1 : (SkStDM.const_sigma exSym1).PosDef := by
    rw [lam_zero_const_sigma_eq exSym1 rfl,
      show MvSt.const_sigma exSym1
        = ((1 : ℝ) - 2 / 10) • (1 : Matrix (Fin 1) (Fin 1) ℝ) from rfl]
    exact posDef_smul_one (by norm_num)
  refine ⟨⟨by norm_num [exSym2, MvSt.init], hPD2,
      (pdf_returns_T_nonneg_values.1 2 1 exSym2 dZero2
        (by norm_num [exSym2, MvSt.init]) hPD2).2 0⟩,
    ⟨by norm_num [exSym1], hPD1, fun x y => by norm_num [kvOne],
      (pdf_returns_T_nonneg_values.2 1 1 kvOne exSym1 dZero1 (by norm_num [exSym1]) hPD1
        (fun x y => by norm_num [kvOne])).2 0⟩⟩

/-- C2, counterexample: at `lam` exactly zero the skewed `pdf` does not reproduce the
symmetric values.  The code evaluates `kv ν κ * κ ^ ν` at `κ = 0` (the removable
singularity the spec flags in section 4.3); since `0 ^ ν = 0`, the product vanishes for
any finite Bessel value (here the constant-one collaborator `kvOne`; scipy returns
`inf * 0 = nan`), while the symmetric density at the same point is strictly positive. -/
theorem skstdm_pdf_at_lam_zero_differs :
    SkStDM.pdfVals kvOne exSym1 dZero1 0 = 0
      ∧ 0 < MvSt.pdfVals exSym1 dZero1 0
      ∧ SkStDM.pdfVals kvOne exSym1 dZero1 0 ≠ MvSt.pdfVals exSym1 dZero1 0 := by
  have hz : SkStDM.pdfVals kvOne exSym1 dZero1 0 = 0 := by
    have hnl : (∑ i, exSym1.lam i * ((SkStDM.const_sigma exSym1)⁻¹ *ᵥ exSym1.lam) i)
        = 0 := by
      simp [exSym1]
    have hne : (exSym1.eta + ((1 : ℕ) : ℝ)) / 2 ≠ 0 := by
      norm_num [exSym1]
    simp only [SkStDM.pdfVals, hnl, mul_zero,
      Real.zero_rpow (by norm_num : ((1 : ℝ) / 2) ≠ 0), Real.zero_rpow hne,
      zero_div, zero_mul]
  have hv1 : (fun i => dZero1 0 i - MvSt.const_mu exSym1 i) = (0 : Fin 1 → ℝ) := by
    funext i
    simp [dZero1, exSym1, MvSt.const_mu]
  have hp : 0 < MvSt.pdfVals exSym1 dZero1 0 := by
    rw [mvst_pdfVals_formula exSym1 dZero1 (by norm_num [exSym1]) rfl 0, hv1,
      Matrix.zero_dotProduct, show exSym1.eta = (10 : ℝ) from rfl]
    have hdet1 : (MvSt.const_sigma exSym1).det = 4 / 5 := by
      rw [show MvSt.const_sigma exSym1
          = ((1 : ℝ) - 2 / 10) • (1 : Matrix (Fin 1) (Fin 1) ℝ) from rfl,
        Matrix.det_smul, Matrix.det_one, mul_one, Fintype.card_fin]
      norm_num
    rw [hdet1, show ((1 : ℝ) + 0 / 10) = 1 by norm_num, Real.one_rpow, mul_one]
    refine mul_pos (Real.rpow_pos_of_pos (by positivity) _)
      (div_pos (Real.Gamma_pos_of_pos (by positivity)) (Real.Gamma_pos_of_pos (by positivity)))
  exact ⟨hz, hp, by rw [hz]; exact hp.ne⟩

/-- C2 (amended): the skewed density with `lam = 0` agrees with the symmetric density
once the factor `kv ν κ * κ ^ ν` is replaced by its removable-singularity value
`2 ^ (ν-1) * Γ ν` (its limit as `κ → 0`); as written, the code evaluates that factor at
`κ = 0` and does not return the symmetric values (see the counterexample). -/
theorem skstdm_limit_pdf_eq_mvst_pdf :
    ∀ (k T : ℕ) (s : MultiDensity k) (d : Matrix (Fin T) (Fin k) ℝ),
      s.lam = 0 → s.ndim = k → 0 < s.eta →
      SkStDM.pdfValsLimit s d = MvSt.pdfVals s d := by
  intro k T s d h0 hnd heta
  funext t
  have hmu := lam_zero_const_mu_eq s h0
  have hsig := lam_zero_const_sigma_eq s h0
  have hnu : 0 < (s.eta + (k : ℝ)) / 2 := by positivity
  have h2 : 0 < s.eta / 2 := by positivity
  simp only [SkStDM.pdfValsLimit, MvSt.pdfVals, hmu, hsig, h0, hnd, Pi.zero_apply,
    mul_zero, Finset.sum_const_zero, Real.exp_zero, mul_one]
  rw [gamma_ratio hnu h2, rpow_neg_half_eq]
  exact two_pow_cancel _ _ _ _ _

/-- C2, witness: the amended refinement at the one-dimensional zero-skewness state. -/
theorem skstdm_limit_pdf_eq_mvst_pdf_witness :
    exSym1.lam = 0 ∧ exSym1.ndim = 1 ∧ 0 < exSym1.eta
      ∧ SkStDM.pdfValsLimit exSym1 dZero1 = MvSt.pdfVals exSym1 dZero1 :=
  ⟨rfl, rfl, by norm_num [exSym1],
    skstdm_limit_pdf_eq_mvst_pdf 1 1 exSym1 dZero1 rfl rfl (by norm_num [exSym1])⟩

/-- C10 (implicit): `SkStDM.from_theta` validates nothing against the stored `ndim` —
it stores `eta` as the one-element array `[theta 0]` and `lam` as the tail (length
`len - 1`); `SkStDM.pdfVals` depends only on the working dimension `lam.size`, never on
the stored `ndim`; `MvSt.pdfVals` uses the stored `ndim` in the gamma-ratio term but
the working dimension in the power and determinant terms, so it matches the documented
formula when they agree and provably differs from it at a concrete mismatched state. -/
theorem from_theta_dims_unvalidated :
    (∀ (a : ℝ) (rest : List ℝ),
        SkStDM.from_theta_fields (a :: rest) = ([a], rest)
          ∧ (SkStDM.from_theta_fields (a :: rest)).1.length = 1
          ∧ (SkStDM.from_theta_fields (a :: rest)).2.length = (a :: rest).length - 1)
      ∧ (∀ (k m : ℕ) (s : MultiDensity k) (theta : Fin (m + 1) → ℝ),
          (SkStDM.from_theta s theta).ndim = s.ndim
            ∧ (SkStDM.from_theta s theta).eta = theta 0
            ∧ (SkStDM.from_theta s theta).lam = fun i : Fin m => theta i.succ)
      ∧ (∀ (k T n : ℕ) (kv : ℝ → ℝ → ℝ) (s : MultiDensity k)
          (d : Matrix (Fin T) (Fin k) ℝ),
          SkStDM.pdfVals kv { s with ndim := n } d = SkStDM.pdfVals kv s d)
      ∧ (∀ (k T : ℕ) (s : MultiDensity k) (d : Matrix (Fin T) (Fin k) ℝ) (t : Fin T),
          0 < s.eta → s.ndim = k →
          MvSt.pdfVals s d t =
            ((Real.pi * s.eta) ^ k * (MvSt.const_sigma s).det) ^ (-(1 / 2) : ℝ)
              * (Real.Gamma ((s.eta + (k : ℝ)) / 2) / Real.Gamma (s.eta / 2))
              * (1 + dotProduct (fun i => d t i - MvSt.const_mu s i)
                    ((MvSt.const_sigma s)⁻¹ *ᵥ fun i => d t i - MvSt.const_mu s i) / s.eta)
                  ^ (-((s.eta + (k : ℝ)) / 2)))
      ∧ MvSt.pdfVals exMismatch dZero1 0 ≠
          ((Real.pi * exMismatch.eta) ^ 1 * (MvSt.const_sigma exMismatch).det)
              ^ (-(1 / 2) : ℝ)
            * (Real.Gamma ((exMismatch.eta + ((1 : ℕ) : ℝ)) / 2)
                / Real.Gamma (exMismatch.eta / 2))
            * (1 + dotProduct (fun i => dZero1 0 i - MvSt.const_mu exMismatch i)
                  ((MvSt.const_sigma exMismatch)⁻¹ *ᵥ
                    fun i => dZero1 0 i - MvSt.const_mu exMismatch i) / exMismatch.eta)
                ^ (-((exMismatch.eta + ((1 : ℕ) : ℝ)) / 2)) := by
  have hmu0 : (fun i => dZero1 0 i - MvSt.const_mu exMismatch i) = (0 : Fin 1 → ℝ) := by
    funext i
    simp [dZero1, exMismatch, MvSt.const_mu, vecOfList, Fin.val_eq_zero, List.getD]
  have hdet : (MvSt.const_sigma exMismatch).det = 1 := by
    rw [show MvSt.const_sigma exMismatch = matOfLists 1 [[1]] from rfl, Matrix.det_fin_one]
    simp [matOfLists, List.getD]
  have hval : MvSt.pdfVals exMismatch dZero1 0
      = ((Real.pi * 10) ^ 1 * (MvSt.const_sigma exMismatch).det) ^ (-(1 / 2) : ℝ) * 5 := by
    simp only [MvSt.pdfVals]
    rw [sandwich_eq_dotProduct]
    simp only [Matrix.of_apply]
    rw [hmu0, Matrix.zero_dotProduct, show exMismatch.eta = (10 : ℝ) from rfl,
      show exMismatch.ndim = 2 from rfl,
      show ((10 : ℝ) + ((2 : ℕ) : ℝ)) / 2 = 6 by push_cast; norm_num,
      show ((10 : ℝ)) / 2 = 5 by norm_num,
      gamma_ratio (by norm_num) (by norm_num), gamma_six, gamma_five]
    norm_num [Real.one_rpow]
  have hdoc : ((Real.pi * exMismatch.eta) ^ 1 * (MvSt.const_sigma exMismatch).det)
          ^ (-(1 / 2) : ℝ)
        * (Real.Gamma ((exMismatch.eta + ((1 : ℕ) : ℝ)) / 2)
            / Real.Gamma (exMismatch.eta / 2))
        * (1 + dotProduct (fun i => dZero1 0 i - MvSt.const_mu exMismatch i)
              ((MvSt.const_sigma exMismatch)⁻¹ *ᵥ
                fun i => dZero1 0 i - MvSt.const_mu exMismatch i) / exMismatch.eta)
            ^ (-((exMismatch.eta + ((1 : ℕ) : ℝ)) / 2))
      = ((Real.pi * 10) ^ 1 * (MvSt.const_sigma exMismatch).det) ^ (-(1 / 2) : ℝ)
          * (Real.Gamma (11 / 2) / 24) := by
    rw [hmu0, Matrix.zero_dotProduct, show exMismatch.eta = (10 : ℝ) from rfl,
      show ((10 : ℝ) + ((1 : ℕ) : ℝ)) / 2 = 11 / 2 by push_cast; norm_num,
      show ((10 : ℝ)) / 2 = 5 by norm_num, gamma_five]
    norm_num [Real.one_rpow]
  refine ⟨fun a rest => ⟨rfl, rfl, rfl⟩, fun k m s theta => ⟨rfl, rfl, rfl⟩,
    fun k T n kv s d => rfl, fun k T s d t h hnd => mvst_pdfVals_formula s d h hnd t, ?_⟩
  rw [hval, hdoc]
  have hc : 0 < ((Real.pi * 10) ^ 1 * (MvSt.const_sigma exMismatch).det)
      ^ (-(1 / 2) : ℝ) := by
    apply Real.rpow_pos_of_pos
    rw [hdet]
    positivity
  intro heq
  have h5 : (5 : ℝ) = Real.Gamma (11 / 2) / 24 := mul_left_cancel₀ hc.ne' heq
  rw [eq_div_iff (by norm_num : (24 : ℝ) ≠ 0)] at h5
  linarith [gamma_eleven_half_lt]

/-- C10, witness: the storage split at a length-2 flat vector, and the documented
formula match at a state whose stored `ndim` equals the working dimension. -/
theorem from_theta_dims_unvalidated_witness :
    SkStDM.from_theta_fields ((10 : ℝ) :: [(1 : ℝ) / 2]) = ([10], [(1 : ℝ) / 2])
      ∧ 0 < exSym1.eta ∧ exSym1.ndim = 1
      ∧ MvSt.pdfVals exSym1 dZero1 0 =
          ((Real.pi * exSym1.eta) ^ 1 * (MvSt.const_sigma exSym1).det) ^ (-(1 / 2) : ℝ)
            * (Real.Gamma ((exSym1.eta + ((1 : ℕ) : ℝ)) / 2) / Real.Gamma (exSym1.eta / 2))
            * (1 + dotProduct (fun i => dZero1 0 i - MvSt.const_mu exSym1 i)
                  ((MvSt.const_sigma exSym1)⁻¹ *ᵥ fun i => dZero1 0 i - MvSt.const_mu exSym1 i)
                / exSym1.eta) ^ (-((exSym1.eta + ((1 : ℕ) : ℝ)) / 2)) :=
  ⟨(from_theta_dims_unvalidated.1 10 [(1 : ℝ) / 2]).1, by norm_num [exSym1], rfl,
    from_theta_dims_unvalidated.2.2.2.1 1 1 exSym1 dZero1 0 (by norm_num [exSym1]) rfl⟩
